import Mathlib

/-!
# go-mysportsfeeds: the daily player gamelogs endpoint

A shallow embedding of `daily_player_gamelogs.go` (package `msf`) and the
properties of its validator, URI builder and request/response handling.

Modelling conventions.

* A Go `string` is a Lean `String`; `len` is the byte length, as in Go.
* A Go `error` is `Option GoError`: `none` is the nil interface value, and a
  non-nil error is known by the text its `Error()` method returns.
* `fmt.Sprintf` with only `%s` verbs is string concatenation; `%d` on an
  `int` is the decimal rendering of the integer.
* The pointer arguments (`options`, the receiver `s`, `s.Logger`) are taken to
  be non-nil, so a record stands for the value they point to.
* A call that evaluates `err.Error()` on a nil `err` panics; the model makes
  this explicit in `Outcome.panicked`.
-/

namespace Msf

/-! ## Go primitives -/

/-- Go's builtin `len` on a string: the number of bytes. -/
def len (s : String) : Nat := s.utf8ByteSize

/-- A non-nil Go `error` value, known by the text of its `Error()` method. -/
structure GoError where
  msg : String
  deriving DecidableEq, Repr

/-- The call `errors.New(text)`. -/
def errorsNew (text : String) : GoError := ⟨text⟩

/-! ## The options record (source lines 14-35) -/

/-- The struct `DailyPlayerGamelogsOptions`: seven URL parts, nine optional
URL parameters. The Go field `Sort` is written `Sort_`, `Sort` being a Lean
keyword. -/
structure DailyPlayerGamelogsOptions where
  URL : String := ""
  Version : String := ""
  Sport : String := ""
  Season : String := ""
  Date : String := ""
  Week : String := ""
  Format : String := ""
  Team : String := ""
  Player : String := ""
  Position : String := ""
  Game : String := ""
  Stats : String := ""
  Sort_ : String := ""
  Offset : String := ""
  Limit : String := ""
  Force : String := ""
  deriving DecidableEq, Repr

/-! ## The validator (source lines 137-160) -/

/-- The function `validateDailyPlayerGamelogsURI`: the first required field of
length zero decides the error; `none` is Go's `nil`. -/
def validateDailyPlayerGamelogsURI (options : DailyPlayerGamelogsOptions) : Option GoError :=
  if len options.URL == 0 then
    some (errorsNew "missing required option to build the url: URL")
  else if len options.Version == 0 then
    some (errorsNew "missing required option to build the url: Version")
  else if len options.Sport == 0 then
    some (errorsNew "missing required option to build the url: Sport")
  else if len options.Season == 0 then
    some (errorsNew "missing required option to build the url: Season")
  else if len options.Date == 0 then
    some (errorsNew "missing required option to build the url: Date")
  else if len options.Week == 0 then
    some (errorsNew "missing required option to build the url: Week")
  else if len options.Format == 0 then
    some (errorsNew "missing required option to build the url: Format")
  else
    none

/-! ## Vocabulary of the specification -/

/-- All seven required fields are non-empty. -/
def RequiredPresent (o : DailyPlayerGamelogsOptions) : Prop :=
  o.URL ≠ "" ∧ o.Version ≠ "" ∧ o.Sport ≠ "" ∧ o.Season ≠ "" ∧
    o.Date ≠ "" ∧ o.Week ≠ "" ∧ o.Format ≠ ""

instance (o : DailyPlayerGamelogsOptions) : Decidable (RequiredPresent o) := by
  unfold RequiredPresent; infer_instance

/-- The required fields in their declared order, each paired with its name. -/
def requiredFields (o : DailyPlayerGamelogsOptions) : List (String × String) :=
  [("URL", o.URL), ("Version", o.Version), ("Sport", o.Sport), ("Season", o.Season),
   ("Date", o.Date), ("Week", o.Week), ("Format", o.Format)]

/-- The names of the seven required fields. -/
def requiredNames : List String :=
  ["URL", "Version", "Sport", "Season", "Date", "Week", "Format"]

/-- The name of the first required field, in declared order, whose value is
empty; `none` when there is no such field. -/
def firstMissing (o : DailyPlayerGamelogsOptions) : Option String :=
  ((requiredFields o).find? (fun p => p.2 == "")).map (fun p => p.1)

/-- The text `t` ends with the text `name`. -/
def EndsWith (t name : String) : Prop := name.data <:+ t.data

instance (t name : String) : Decidable (EndsWith t name) := by
  unfold EndsWith; infer_instance

/-- The same record with its nine optional fields replaced. -/
def withOptionals (o : DailyPlayerGamelogsOptions)
    (team player position game stats sort offset limit force : String) :
    DailyPlayerGamelogsOptions :=
  { o with Team := team, Player := player, Position := position, Game := game,
           Stats := stats, Sort_ := sort, Offset := offset, Limit := limit, Force := force }

/-! ## The clock and the cachebuster layout (source lines 59-60)

`time.Now()` and `Time.Format` belong to Go's standard library. A clock
reading is kept as the civil fields that `Time.Date` and `Time.Clock` return,
and `Format` is embedded for the one layout the source passes to it. -/

/-- A clock reading at second granularity: the fields `Time.Date` and
`Time.Clock` return for it. -/
structure Time where
  year : Int
  month : Nat
  day : Nat
  hour : Nat
  minute : Nat
  second : Nat
  deriving DecidableEq, Repr

/-- The ranges Go documents for the civil fields of a `Time`. -/
def Time.InRange (t : Time) : Prop :=
  1 ≤ t.month ∧ t.month ≤ 12 ∧ 1 ≤ t.day ∧ t.day ≤ 31 ∧
    t.hour < 24 ∧ t.minute < 60 ∧ t.second < 60

instance (t : Time) : Decidable t.InRange := by
  unfold Time.InRange; infer_instance

/-- The byte `'0' + d`. -/
def digitChar (d : Nat) : Char := Char.ofNat (48 + d)

/-- The digit loop of `appendInt` in Go's `time` package: while `u >= 10` the
lowest digit is stored in front of those already produced, then the leading
digit. The fuel is the size of the 20-byte buffer the loop writes to, enough
for every 64-bit value. -/
def digitsLoop : Nat → Nat → List Char → List Char
  | 0, _, buf => buf
  | fuel + 1, u, buf =>
    if u ≥ 10 then digitsLoop fuel (u / 10) (digitChar (u % 10) :: buf)
    else digitChar u :: buf

/-- The function `appendInt(b, x, width)` of Go's `time` package: a minus sign
for a negative `x`, zeros up to `width`, then the decimal digits. -/
def appendInt (b : List Char) (x : Int) (width : Nat) : List Char :=
  let b := if x < 0 then b ++ ['-'] else b
  let u := x.natAbs
  let ds := digitsLoop 20 u []
  b ++ List.replicate (width - ds.length) '0' ++ ds

/-- The call `t.Format("20060102150405")`: the layout splits into the chunks
`2006` (year, width 4), `01` (month), `02` (day), `15` (hour), `04` (minute),
`05` (second), the last five of width 2, with no literal text between. -/
def Time.Format20060102150405 (t : Time) : String :=
  let b := appendInt [] t.year 4
  let b := appendInt b t.month 2
  let b := appendInt b t.day 2
  let b := appendInt b t.hour 2
  let b := appendInt b t.minute 2
  let b := appendInt b t.second 2
  String.mk b

/-- The number a list of decimal digit characters stands for. -/
def digitsVal (l : List Char) : Nat :=
  l.foldl (fun v c => v * 10 + (c.toNat - 48)) 0

/-- The year of the reading fits Go's 64-bit `int`. -/
def Time.YearIsInt (t : Time) : Prop :=
  -9223372036854775808 ≤ t.year ∧ t.year ≤ 9223372036854775807

instance (t : Time) : Decidable t.YearIsInt := by
  unfold Time.YearIsInt; infer_instance

/-! ## The URI (source lines 62-98) -/

/-- The URI assembled by `DailyPlayerGamelogs` from the options and the
cachebuster: the `Sprintf` of line 62, then the nine guarded `Sprintf` calls
of lines 64-98, in source order. -/
def buildURI (options : DailyPlayerGamelogsOptions) (cacheBuster : String) : String :=
  let uri := options.URL ++ "/" ++ options.Version ++ "/pull/" ++ options.Sport ++ "/" ++
    options.Season ++ "/date/" ++ options.Date ++ "/week/" ++ options.Week ++
    "/player_gamelogs." ++ options.Format ++ "?cachebuster=" ++ cacheBuster
  let uri := if len options.Team > 0 then uri ++ "&team=" ++ options.Team else uri
  let uri := if len options.Player > 0 then uri ++ "&player=" ++ options.Player else uri
  let uri := if len options.Position > 0 then uri ++ "&position=" ++ options.Position else uri
  let uri := if len options.Game > 0 then uri ++ "&game=" ++ options.Game else uri
  let uri := if len options.Stats > 0 then uri ++ "&stats=" ++ options.Stats else uri
  let uri := if len options.Sort_ > 0 then uri ++ "&sort=" ++ options.Sort_ else uri
  let uri := if len options.Offset > 0 then uri ++ "&offset=" ++ options.Offset else uri
  let uri := if len options.Limit > 0 then uri ++ "&limit=" ++ options.Limit else uri
  let uri := if len options.Force > 0 then uri ++ "&force=" ++ options.Force else uri
  uri

/-- The optional parameters in the order the source tests them, each key
paired with the value of its field. -/
def optionalPairs (o : DailyPlayerGamelogsOptions) : List (String × String) :=
  [("team", o.Team), ("player", o.Player), ("position", o.Position), ("game", o.Game),
   ("stats", o.Stats), ("sort", o.Sort_), ("offset", o.Offset), ("limit", o.Limit),
   ("force", o.Force)]

/-- The query suffix as the specification words it: over the pairs whose value
is non-empty, in order, the concatenation of `&key=value`. -/
def optionalSuffix (o : DailyPlayerGamelogsOptions) : String :=
  String.join (((optionalPairs o).filter (fun p => p.2 ≠ "")).map
    (fun p => "&" ++ p.1 ++ "=" ++ p.2))

/-- The record with its nine optional fields cleared. -/
def clearOptionals (o : DailyPlayerGamelogsOptions) : DailyPlayerGamelogsOptions :=
  withOptionals o "" "" "" "" "" "" "" "" ""

/-- All nine optional fields are empty. -/
def OptionalsEmpty (o : DailyPlayerGamelogsOptions) : Prop :=
  o.Team = "" ∧ o.Player = "" ∧ o.Position = "" ∧ o.Game = "" ∧ o.Stats = "" ∧
    o.Sort_ = "" ∧ o.Offset = "" ∧ o.Limit = "" ∧ o.Force = ""

instance (o : DailyPlayerGamelogsOptions) : Decidable (OptionalsEmpty o) := by
  unfold OptionalsEmpty; infer_instance

/-! ## The service, the HTTP collaborators and the log

`Service`, its `Config`, `GameLogIO` and `CompressionHeaderGzip` are declared
in other files of the package; `retryablehttp`, `net/http`, `encoding/json`
and `logrus` are libraries. The records below carry what the source reads and
writes of them, and the collaborators are parameters of the model. -/

/-- Modelled from the spec: the process-wide configuration that the service
holds (BaseURL, Version, Sport, Format, Season, Authorization credential);
its declaration is in another file of the package. -/
structure Config where
  BaseURL : String := ""
  Version : String := ""
  Sport : String := ""
  Format : String := ""
  Season : String := ""
  Authorization : String := ""
  deriving DecidableEq, Repr

/-- A `logrus` entry: the structured fields attached to every event it logs. -/
structure Logger where
  Data : List (String × String) := []
  deriving DecidableEq, Repr

/-- The method `WithFields`: a new entry holding the old fields and the given
ones, a given field replacing an old one of the same key. -/
def Logger.WithFields (l : Logger) (fields : List (String × String)) : Logger :=
  ⟨(l.Data.filter (fun p => !(fields.any (fun q => q.1 == p.1)))) ++ fields⟩

/-- Modelled from the spec: the service a call is made on, holding the
configuration and the logging collaborator; its declaration is in another file
of the package. -/
structure Service where
  Config : Config := {}
  Logger : Logger := {}
  deriving DecidableEq, Repr

/-- An HTTP request: method, target and header, the header being a list of
keys each with its values in the order they were added. -/
structure Request where
  Method : String
  URL : String
  Header : List (String × List String) := []
  deriving DecidableEq, Repr

/-- The method `Header.Add(key, value)`: the value is appended to the values
already stored under the key. -/
def headerAdd (h : List (String × List String)) (key value : String) :
    List (String × List String) :=
  if h.any (fun p => p.1 == key) then
    h.map (fun p => if p.1 == key then (p.1, p.2 ++ [value]) else p)
  else h ++ [(key, [value])]

/-- An HTTP response: the status code and the body still to be read. -/
structure Response (Body : Type) where
  StatusCode : Int
  Body : Body

/-- What the surroundings of a call provide: the clock reading, the package
constant `CompressionHeaderGzip`, the zero value `GameLogIO{}`, whether
`retryablehttp.NewRequest` rejects a method and URI, what the retrying client
answers to a request, and what the JSON decoder does with a body and the
mapping it decodes into (the mapping afterwards, and the error or nil). The
client that `retryablehttp.NewClient()` builds retries an answer in the 5xx
range and, the retries used up, returns an error: such an answer reaches the
call as the error of `clientDo`, not as a response. -/
structure Env ( GameLogIO Body : Type) where
  now : Time
  CompressionHeaderGzip : String
  zero : GameLogIO
  newRequestError : String → String → Option GoError
  clientDo : Request → Except GoError (Response Body)
  decode : Body → GameLogIO → GameLogIO × Option GoError

/-- The effects of a call that the outside can observe, in order. -/
inductive Event where
  | timeNow
  | logDebug (data : List (String × String)) (msg : String)
  | logInfo (msg : String)
  | logError (msg : String)
  | newClient
  | newRequest (method uri : String)
  | clientDo (req : Request)
  | decodeBody
  deriving DecidableEq, Repr

/-- How a call ends: it returns its triple, or it panics. -/
inductive Outcome ( GameLogIO : Type) where
  | returned (mapping : GameLogIO) (status : Int) (err : Option GoError)
  | panicked (what : String)
  deriving DecidableEq, Repr

/-- A finished call: the service afterwards, the effects, and the outcome. -/
structure Run ( GameLogIO : Type) where
  service : Service
  trace : List Event
  outcome : Outcome GameLogIO

/-- The expression `err.Error()`: the text of a non-nil error; on a nil error
the method call is a nil dereference, rendered as `none`. -/
def errorText (err : Option GoError) : Option String :=
  err.map (fun e => e.msg)

/-- The text Go's runtime gives for a method call through a nil interface. -/
def nilDereference : String :=
  "runtime error: invalid memory address or nil pointer dereference"

/-- The call `retryablehttp.NewRequest(method, uri, nil)`: an error when the
library rejects the method or URI, else a request with an empty header. -/
def NewRequest { GameLogIO Body : Type} (env : Env GameLogIO Body) (method uri : String) :
    Except GoError Request :=
  match env.newRequestError method uri with
  | some e => .error e
  | none => .ok { Method := method, URL := uri }

/-- The method `DailyPlayerGamelogs` (source lines 49-135). The variable `err`
is the single error variable of the Go function: assigned by the validator, by
`NewRequest` and by `client.Do`, and read in every failure branch. -/
def DailyPlayerGamelogs { GameLogIO Body : Type} (env : Env GameLogIO Body) (s : Service)
    (options : DailyPlayerGamelogsOptions) : Run GameLogIO :=
  let mapping := env.zero
  let err := validateDailyPlayerGamelogsURI options
  if err ≠ none then
    ⟨s, [], .returned mapping 0 err⟩
  else
    let t := env.now
    let cacheBuster := t.Format20060102150405
    let uri := buildURI options cacheBuster
    let s := { s with Logger := s.Logger.WithFields [("URI", uri)] }
    let tr := [Event.timeNow, .logDebug s.Logger.Data "DailyPlayerGamelogs API Call",
      .newClient, .newRequest "GET" uri]
    match NewRequest env "GET" uri with
    | .error e =>
      let err := some e
      match errorText err with
      | none => ⟨s, tr, .panicked nilDereference⟩
      | some text =>
        ⟨s, tr ++ [.logError ("client: could not create request: " ++ text)],
          .returned mapping 0 err⟩
    | .ok req =>
      let req := { req with Header := headerAdd req.Header "Authorization"
                                        env.CompressionHeaderGzip }
      let req := { req with Header := headerAdd req.Header "Authorization"
                                        s.Config.Authorization }
      let tr := tr ++ [.clientDo req]
      match env.clientDo req with
      | .error e =>
        let err := some e
        match errorText err with
        | none => ⟨s, tr, .panicked nilDereference⟩
        | some text =>
          ⟨s, tr ++ [.logError ("client: error making http request: " ++ text)],
            .returned mapping 0 err⟩
      | .ok response =>
        let err : Option GoError := none
        if response.StatusCode < 200 || response.StatusCode > 300 then
          match errorText err with
          | none => ⟨s, tr, .panicked nilDereference⟩
          | some text =>
            ⟨s, tr ++ [.logError ("client: something went wrong making the get request " ++
                "for DailyPlayerGamelogs: " ++ text)],
              .returned mapping response.StatusCode err⟩
        else
          let tr := tr ++ [.logInfo ("DailyPlayerGamelogs Status Code: " ++
            toString response.StatusCode), .decodeBody]
          let decoded := env.decode response.Body mapping
          let mapping := decoded.1
          let jErr := decoded.2
          if jErr ≠ none then
            match errorText err with
            | none => ⟨s, tr, .panicked nilDereference⟩
            | some text =>
              ⟨s, tr ++ [.logError ("client: error decoding response for " ++
                  "DailyPlayerGamelogs: " ++ text)],
                .returned mapping response.StatusCode err⟩
          else
            ⟨s, tr, .returned mapping response.StatusCode none⟩

/-- The factory `NewDailyPlayerGamelogsOptions` (source lines 37-46). -/
def NewDailyPlayerGamelogsOptions (s : Service) : DailyPlayerGamelogsOptions :=
  { URL := s.Config.BaseURL
    Version := s.Config.Version
    Sport := s.Config.Sport
    Format := s.Config.Format
    Season := s.Config.Season }

/-! ## Vocabulary for the request and the trace -/

/-- The URI of a call: the options and the formatted clock reading. -/
def builtURI { GameLogIO Body : Type} (env : Env GameLogIO Body)
    (o : DailyPlayerGamelogsOptions) : String :=
  buildURI o env.now.Format20060102150405

/-- The request as the specification describes it: a GET to the built URI with
the compression token and then the credential under `Authorization`. -/
def builtRequest { GameLogIO Body : Type} (env : Env GameLogIO Body) (s : Service)
    (o : DailyPlayerGamelogsOptions) : Request :=
  { Method := "GET", URL := builtURI env o,
    Header := [("Authorization", [env.CompressionHeaderGzip, s.Config.Authorization])] }

/-- The URIs for which a trace constructs a request, in order. -/
def requestedURIs : List Event → List String
  | [] => []
  | Event.newRequest _ uri :: es => uri :: requestedURIs es
  | _ :: es => requestedURIs es

/-- The requests a trace hands to the client, in order. -/
def sentRequests : List Event → List Request
  | [] => []
  | Event.clientDo req :: es => req :: sentRequests es
  | _ :: es => sentRequests es

/-- The text `t` contains the text `n` as a contiguous part. -/
def Contains (t n : String) : Prop := n.data <:+: t.data

instance (t n : String) : Decidable (Contains t n) := by
  unfold Contains; infer_instance

/-- The sixteen field values of a record. -/
def fieldValues (o : DailyPlayerGamelogsOptions) : List String :=
  [o.URL, o.Version, o.Sport, o.Season, o.Date, o.Week, o.Format, o.Team, o.Player,
   o.Position, o.Game, o.Stats, o.Sort_, o.Offset, o.Limit, o.Force]

/-! ## Concrete inputs -/

/-- The JSON text of the empty object, an opening and a closing brace. -/
def emptyObject : String := "\x7b\x7d"

/-- The options of the specification's scenario, no optional field set. -/
def exampleOptions : DailyPlayerGamelogsOptions :=
  { URL := "https://api.example.com", Version := "v2.1", Sport := "nfl",
    Season := "2018-2019-regular", Date := "20180907", Week := "1", Format := "json" }

/-- Surroundings in which the clock reads 2018-09-07 03:04:05, every request
is constructed and answered with the given status and body, and exactly the
empty object decodes. The mapping is kept as text. -/
def exampleEnv (status : Int) (body : String) : Env String String where
  now := ⟨2018, 9, 7, 3, 4, 5⟩
  CompressionHeaderGzip := "gzip"
  zero := ""
  newRequestError := fun _ _ => none
  clientDo := fun _ => .ok ⟨status, body⟩
  decode := fun b m =>
    if b = emptyObject then (emptyObject, none)
    else (m, some ⟨"invalid character in JSON input"⟩)

/-- Surroundings in which request construction fails. -/
def rejectingEnv : Env String String :=
  { exampleEnv 200 emptyObject with
    newRequestError := fun _ _ => some ⟨"parse: invalid URI for request"⟩ }

/-- Surroundings in which the retrying client gives up with an error. -/
def unreachableEnv : Env String String :=
  { exampleEnv 200 emptyObject with
    clientDo := fun _ => .error ⟨"GET giving up after 5 attempts"⟩ }

/-- The surroundings of `exampleEnv 200 emptyObject` one second later. -/
def laterEnv : Env String String :=
  { exampleEnv 200 emptyObject with now := ⟨2018, 9, 7, 3, 4, 6⟩ }

/-- The scenario of the specification with a Team value that carries the
text of another parameter. -/
def smugglingOptions : DailyPlayerGamelogsOptions :=
  { exampleOptions with Team := "NE&player=x" }

/-! ## Lemmas on the primitives -/

theorem len_eq_zero_iff (s : String) : len s = 0 ↔ s = "" := by
  obtain ⟨l⟩ := s
  cases l with
  | nil => simp [len, String.utf8ByteSize, String.utf8ByteSize.go]
  | cons c cs =>
    have hc := Char.utf8Size_pos c
    simp [len, String.utf8ByteSize, String.utf8ByteSize.go]
    constructor
    · omega
    · intro h; exact absurd (congrArg String.data h) (by simp)

theorem len_beq_zero (s : String) : (len s == 0) = decide (s = "") := by
  by_cases h : s = ""
  · subst h; rfl
  · have h0 : len s ≠ 0 := fun e => h ((len_eq_zero_iff s).1 e)
    simp [h, h0]

theorem len_pos_iff (s : String) : len s > 0 ↔ s ≠ "" := by
  rw [gt_iff_lt, Nat.pos_iff_ne_zero, Ne, len_eq_zero_iff]

theorem validate_eq_none_iff (o : DailyPlayerGamelogsOptions) :
    validateDailyPlayerGamelogsURI o = none ↔ RequiredPresent o := by
  simp only [validateDailyPlayerGamelogsURI, RequiredPresent, len_beq_zero]
  by_cases h1 : o.URL = "" <;> by_cases h2 : o.Version = "" <;>
    by_cases h3 : o.Sport = "" <;> by_cases h4 : o.Season = "" <;>
    by_cases h5 : o.Date = "" <;> by_cases h6 : o.Week = "" <;>
    by_cases h7 : o.Format = "" <;> simp [h1, h2, h3, h4, h5, h6, h7]

/-! ## Lemmas on the cachebuster layout -/

theorem digitChar_isDigit (d : Nat) (h : d < 10) : (digitChar d).isDigit = true := by
  interval_cases d <;> decide

theorem digitsLoop_spec : ∀ (fuel u : Nat) (buf : List Char) (k : Nat),
    u < 10 ^ k → 1 ≤ k → k ≤ fuel →
    ∃ ds, digitsLoop fuel u buf = ds ++ buf ∧ 1 ≤ ds.length ∧ ds.length ≤ k ∧
      ∀ c ∈ ds, c.isDigit = true
  | 0, _, _, k, _, h1, h2 => by omega
  | fuel + 1, u, buf, k, hu, h1, h2 => by
    by_cases h10 : u ≥ 10
    · have hk : 2 ≤ k := by
        by_contra hk
        have : k = 1 := by omega
        subst this
        omega
      have hu' : u / 10 < 10 ^ (k - 1) := by
        have : 10 ^ k = 10 ^ (k - 1) * 10 := by
          rw [← pow_succ]; congr 1; omega
        rw [this] at hu
        exact Nat.div_lt_of_lt_mul (by omega)
      obtain ⟨ds, hds, hl1, hl2, hd⟩ :=
        digitsLoop_spec fuel (u / 10) (digitChar (u % 10) :: buf) (k - 1) hu' (by omega)
          (by omega)
      refine ⟨ds ++ [digitChar (u % 10)], ?_, ?_, ?_, ?_⟩
      · simp [digitsLoop, h10, hds]
      · simp
      · simp; omega
      · intro c hc
        rcases List.mem_append.1 hc with hc | hc
        · exact hd c hc
        · rw [List.mem_singleton.1 hc]
          exact digitChar_isDigit _ (Nat.mod_lt _ (by decide))
    · refine ⟨[digitChar u], ?_, ?_, ?_, ?_⟩
      · simp [digitsLoop, h10]
      · simp
      · simpa using h1
      · intro c hc
        rw [List.mem_singleton.1 hc]
        exact digitChar_isDigit _ (by omega)

theorem appendInt_spec (b : List Char) (x : Int) (w : Nat) (h0 : 0 ≤ x) (h1 : x < 10 ^ w)
    (hw : 1 ≤ w) (hw2 : w ≤ 20) :
    ∃ ds, appendInt b x w = b ++ ds ∧ ds.length = w ∧ ∀ c ∈ ds, c.isDigit = true := by
  have hu : x.natAbs < 10 ^ w := by
    have : (x.natAbs : Int) < ((10 ^ w : Nat) : Int) := by
      rw [Int.natAbs_of_nonneg h0]; push_cast; exact h1
    exact_mod_cast this
  obtain ⟨ds, hds, hl1, hl2, hd⟩ := digitsLoop_spec 20 x.natAbs [] w hu hw hw2
  simp only [List.append_nil] at hds
  refine ⟨List.replicate (w - ds.length) '0' ++ ds, ?_, ?_, ?_⟩
  · simp [appendInt, hds, not_lt.2 h0]
  · simp; omega
  · intro c hc
    rcases List.mem_append.1 hc with hc | hc
    · rw [(List.mem_replicate.1 hc).2]; decide
    · exact hd c hc

theorem format_spec (t : Time) (hr : t.InRange) (hy1 : 1 ≤ t.year) (hy2 : t.year ≤ 9999) :
    t.Format20060102150405.length = 14 ∧
      ∀ c ∈ t.Format20060102150405.data, c.isDigit = true := by
  obtain ⟨hm1, hm2, hd1, hd2, hh, hmi, hs⟩ := hr
  obtain ⟨y, ey, ly, dy⟩ := appendInt_spec [] t.year 4 (by omega) (by norm_num; omega)
    (by decide) (by decide)
  obtain ⟨mo, emo, lmo, dmo⟩ := appendInt_spec ([] ++ y) t.month 2 (by omega)
    (by norm_num; omega) (by decide) (by decide)
  obtain ⟨d, ed, ld, dd⟩ := appendInt_spec ([] ++ y ++ mo) t.day 2 (by omega)
    (by norm_num; omega) (by decide) (by decide)
  obtain ⟨h, eh, lh, dh⟩ := appendInt_spec ([] ++ y ++ mo ++ d) t.hour 2 (by omega)
    (by norm_num; omega) (by decide) (by decide)
  obtain ⟨mi, emi, lmi, dmi⟩ := appendInt_spec ([] ++ y ++ mo ++ d ++ h) t.minute 2 (by omega)
    (by norm_num; omega) (by decide) (by decide)
  obtain ⟨sc, esc, lsc, dsc⟩ := appendInt_spec ([] ++ y ++ mo ++ d ++ h ++ mi) t.second 2
    (by omega) (by norm_num; omega) (by decide) (by decide)
  have e : t.Format20060102150405 = String.mk ([] ++ y ++ mo ++ d ++ h ++ mi ++ sc) := by
    simp only [Time.Format20060102150405, ey, emo, ed, eh, emi, esc]
  rw [e]
  constructor
  · simp [String.length, ly, lmo, ld, lh, lmi, lsc]
  · intro c hc
    simp only [List.nil_append, List.mem_append] at hc
    rcases hc with ((((hc | hc) | hc) | hc) | hc) | hc
    · exact dy c hc
    · exact dmo c hc
    · exact dd c hc
    · exact dh c hc
    · exact dmi c hc
    · exact dsc c hc

theorem digitChar_toNat (d : Nat) (h : d < 10) : (digitChar d).toNat - 48 = d := by
  interval_cases d <;> decide

theorem digitsVal_snoc (ds : List Char) (c : Char) :
    digitsVal (ds ++ [c]) = digitsVal ds * 10 + (c.toNat - 48) := by
  simp [digitsVal, List.foldl_append]

theorem digitsVal_zeros (n : Nat) (ds : List Char) :
    digitsVal (List.replicate n '0' ++ ds) = digitsVal ds := by
  have h0 : List.foldl (fun v c => v * 10 + (c.toNat - 48)) 0 (List.replicate n '0') = 0 := by
    induction n with
    | zero => rfl
    | succ n ih =>
      rw [List.replicate_succ, List.foldl_cons]
      exact ih
  simp only [digitsVal, List.foldl_append, h0]

theorem digitsLoop_val : ∀ (fuel u : Nat) (buf : List Char) (k : Nat),
    u < 10 ^ k → 1 ≤ k → k ≤ fuel →
    ∃ ds, digitsLoop fuel u buf = ds ++ buf ∧ 1 ≤ ds.length ∧ ds.length ≤ k ∧
      (∀ c ∈ ds, c.isDigit = true) ∧ digitsVal ds = u
  | 0, _, _, k, _, h1, h2 => by omega
  | fuel + 1, u, buf, k, hu, h1, h2 => by
    by_cases h10 : u ≥ 10
    · have hk : 2 ≤ k := by
        by_contra hk
        have : k = 1 := by omega
        subst this
        omega
      have hu' : u / 10 < 10 ^ (k - 1) := by
        have : 10 ^ k = 10 ^ (k - 1) * 10 := by
          rw [← pow_succ]; congr 1; omega
        rw [this] at hu
        exact Nat.div_lt_of_lt_mul (by omega)
      obtain ⟨ds, hds, hl1, hl2, hd, hv⟩ :=
        digitsLoop_val fuel (u / 10) (digitChar (u % 10) :: buf) (k - 1) hu' (by omega)
          (by omega)
      refine ⟨ds ++ [digitChar (u % 10)], ?_, ?_, ?_, ?_, ?_⟩
      · simp [digitsLoop, h10, hds]
      · simp
      · simp; omega
      · intro c hc
        rcases List.mem_append.1 hc with hc | hc
        · exact hd c hc
        · rw [List.mem_singleton.1 hc]
          exact digitChar_isDigit _ (Nat.mod_lt _ (by decide))
      · rw [digitsVal_snoc, hv, digitChar_toNat _ (Nat.mod_lt _ (by decide))]
        omega
    · refine ⟨[digitChar u], ?_, ?_, ?_, ?_, ?_⟩
      · simp [digitsLoop, h10]
      · simp
      · simpa using h1
      · intro c hc
        rw [List.mem_singleton.1 hc]
        exact digitChar_isDigit _ (by omega)
      · simp [digitsVal, digitChar_toNat u (by omega)]

theorem appendInt_eq_append (b : List Char) (x : Int) (w : Nat) :
    appendInt b x w = b ++ appendInt [] x w := by
  by_cases hx : x < 0 <;> simp [appendInt, hx]

theorem appendInt_shape (x : Int) (w k : Nat) (hx : x.natAbs < 10 ^ k) (hk1 : 1 ≤ k)
    (hk2 : k ≤ 20) :
    ∃ body, appendInt [] x w = (if x < 0 then ['-'] else []) ++ body ∧
      (∀ c ∈ body, c.isDigit = true) ∧ digitsVal body = x.natAbs ∧ 1 ≤ body.length ∧
      (k ≤ w → body.length = w) := by
  obtain ⟨ds, hds, hl1, hl2, hd, hv⟩ := digitsLoop_val 20 x.natAbs [] k hx hk1 hk2
  simp only [List.append_nil] at hds
  refine ⟨List.replicate (w - ds.length) '0' ++ ds, ?_, ?_, ?_, ?_, ?_⟩
  · by_cases h : x < 0 <;> simp [appendInt, hds, h]
  · intro c hc
    rcases List.mem_append.1 hc with hc | hc
    · rw [(List.mem_replicate.1 hc).2]; decide
    · exact hd c hc
  · rw [digitsVal_zeros, hv]
  · simp; omega
  · intro hkw; simp; omega

theorem appendInt_inj (x y : Int) (w : Nat) (hx : x.natAbs < 10 ^ 20) (hy : y.natAbs < 10 ^ 20)
    (h : appendInt [] x w = appendInt [] y w) : x = y := by
  obtain ⟨bx, ex, dx, vx, lx, -⟩ := appendInt_shape x w 20 hx (by decide) (by decide)
  obtain ⟨b2, ey, dy, vy, ly, -⟩ := appendInt_shape y w 20 hy (by decide) (by decide)
  rw [ex, ey] at h
  by_cases h1 : x < 0 <;> by_cases h2 : y < 0 <;> simp only [h1, h2, if_true, if_false] at h
  · have hb : bx = b2 := by simpa using h
    have : x.natAbs = y.natAbs := by rw [← vx, ← vy, hb]
    omega
  · exfalso
    cases b2 with
    | nil => simp at ly
    | cons c cs =>
      have hc : c = '-' := by
        have := congrArg List.head? h
        simpa using this.symm
      have := dy c (by simp)
      rw [hc] at this
      exact absurd this (by decide)
  · exfalso
    cases bx with
    | nil => simp at lx
    | cons c cs =>
      have hc : c = '-' := by
        have := congrArg List.head? h
        simpa using this
      have := dx c (by simp)
      rw [hc] at this
      exact absurd this (by decide)
  · have hb : bx = b2 := by simpa using h
    have : x.natAbs = y.natAbs := by rw [← vx, ← vy, hb]
    omega

theorem appendInt_two_length (n : Nat) (hn : n < 100) : (appendInt [] (n : Int) 2).length = 2 := by
  obtain ⟨b, e, -, -, -, l⟩ := appendInt_shape (n : Int) 2 2 (by simpa using hn) (by decide)
    (by decide)
  have h0 : ¬ ((n : Int) < 0) := by omega
  rw [e, if_neg h0]
  simpa using l (le_refl 2)


theorem format_data (t : Time) :
    t.Format20060102150405.data =
      appendInt [] t.year 4 ++ appendInt [] t.month 2 ++ appendInt [] t.day 2 ++
        appendInt [] t.hour 2 ++ appendInt [] t.minute 2 ++ appendInt [] t.second 2 := by
  simp only [Time.Format20060102150405]
  rw [appendInt_eq_append (appendInt _ _ _) (t.second : Int) 2,
    appendInt_eq_append (appendInt _ _ _) (t.minute : Int) 2,
    appendInt_eq_append (appendInt _ _ _) (t.hour : Int) 2,
    appendInt_eq_append (appendInt _ _ _) (t.day : Int) 2,
    appendInt_eq_append (appendInt _ _ _) (t.month : Int) 2]

theorem appendInt_nat_inj (m n : Nat) (hm : m < 100) (hn : n < 100)
    (h : appendInt [] (m : Int) 2 = appendInt [] (n : Int) 2) : m = n := by
  have := appendInt_inj (m : Int) (n : Int) 2 (by simp; omega) (by simp; omega) h
  exact_mod_cast this

theorem format_inj (t u : Time) (ht : t.InRange) (hu : u.InRange) (yt : t.YearIsInt)
    (yu : u.YearIsInt) (h : t.Format20060102150405 = u.Format20060102150405) : t = u := by
  obtain ⟨-, tm, -, td, th, tmi, ts⟩ := ht
  obtain ⟨-, um, -, ud, uh, umi, us⟩ := hu
  have hd := congrArg String.data h
  rw [format_data, format_data] at hd
  obtain ⟨hd, e6⟩ := List.append_inj' hd (by
    rw [appendInt_two_length _ (by omega), appendInt_two_length _ (by omega)])
  obtain ⟨hd, e5⟩ := List.append_inj' hd (by
    rw [appendInt_two_length _ (by omega), appendInt_two_length _ (by omega)])
  obtain ⟨hd, e4⟩ := List.append_inj' hd (by
    rw [appendInt_two_length _ (by omega), appendInt_two_length _ (by omega)])
  obtain ⟨hd, e3⟩ := List.append_inj' hd (by
    rw [appendInt_two_length _ (by omega), appendInt_two_length _ (by omega)])
  obtain ⟨e1, e2⟩ := List.append_inj' hd (by
    rw [appendInt_two_length _ (by omega), appendInt_two_length _ (by omega)])
  have hy : t.year = u.year := by
    obtain ⟨a, b⟩ := yt
    obtain ⟨c, d⟩ := yu
    exact appendInt_inj _ _ 4 (by omega) (by omega) e1
  have h2 := appendInt_nat_inj _ _ (by omega) (by omega) e2
  have h3 := appendInt_nat_inj _ _ (by omega) (by omega) e3
  have h4 := appendInt_nat_inj _ _ (by omega) (by omega) e4
  have h5 := appendInt_nat_inj _ _ (by omega) (by omega) e5
  have h6 := appendInt_nat_inj _ _ (by omega) (by omega) e6
  cases t; cases u
  simp_all

/-! ## Lemmas on the URI -/

theorem foldl_suffix (l : List (String × String)) (u : String) :
    l.foldl (fun acc p => if len p.2 > 0 then acc ++ ("&" ++ p.1 ++ "=") ++ p.2 else acc) u =
      u ++ String.join ((l.filter (fun p => p.2 ≠ "")).map
        (fun p => "&" ++ p.1 ++ "=" ++ p.2)) := by
  induction l generalizing u with
  | nil => apply String.ext; simp
  | cons a l ih =>
    rw [List.foldl_cons, ih]
    apply String.ext
    by_cases ha : a.2 = ""
    · have h0 : ¬ len a.2 > 0 := fun h => (len_pos_iff _).1 h ha
      rw [if_neg h0]
      simp [ha, List.filter_cons]
    · have h0 : len a.2 > 0 := (len_pos_iff _).2 ha
      rw [if_pos h0]
      simp [ha, List.filter_cons]

theorem buildURI_eq (o : DailyPlayerGamelogsOptions) (ts : String) :
    buildURI o ts = buildURI (clearOptionals o) ts ++ optionalSuffix o := by
  have hfold : buildURI o ts = (optionalPairs o).foldl
      (fun acc p => if len p.2 > 0 then acc ++ ("&" ++ p.1 ++ "=") ++ p.2 else acc)
      (buildURI (clearOptionals o) ts) := rfl
  rw [hfold, foldl_suffix]
  rfl

theorem buildURI_inj (o : DailyPlayerGamelogsOptions) (a b : String)
    (h : buildURI o a = buildURI o b) : a = b := by
  rw [buildURI_eq o a, buildURI_eq o b] at h
  have ha : ∀ ts : String, buildURI (clearOptionals o) ts =
      (o.URL ++ "/" ++ o.Version ++ "/pull/" ++ o.Sport ++ "/" ++ o.Season ++ "/date/" ++
        o.Date ++ "/week/" ++ o.Week ++ "/player_gamelogs." ++ o.Format ++
        "?cachebuster=") ++ ts := fun _ => rfl
  rw [ha a, ha b] at h
  have hd := congrArg String.data h
  simp only [String.data_append] at hd
  apply String.ext
  exact List.append_cancel_left (List.append_cancel_right hd)

/-! ## Lemmas on occurrences of a parameter key in the URI -/

theorem infix_skip_clean (needle A B : List Char) (hA : ∀ c ∈ A, c ≠ '&')
    (h : ('&' :: needle) <:+: A ++ B) : ('&' :: needle) <:+: B := by
  induction A with
  | nil => simpa using h
  | cons a A ih =>
    rw [List.cons_append, List.infix_cons_iff] at h
    rcases h with h | h
    · exfalso
      have := (List.cons_prefix_cons.1 h).1
      exact hA a (by simp) this.symm
    · exact ih (fun c hc => hA c (by simp [hc])) h

theorem infix_no_straddle (body V R : List Char) (hV : ¬ ('&' :: body) <:+: V)
    (hR : ∀ c ∈ R.head?, c ∉ body) (h : ('&' :: body) <:+: V ++ R) :
    ('&' :: body) <:+: R := by
  induction V with
  | nil => simpa using h
  | cons v V ih =>
    rw [List.cons_append, List.infix_cons_iff] at h
    rcases h with h | h
    · exfalso
      obtain ⟨t, ht⟩ := h
      have ht2 : ('&' :: body) ++ t = (v :: V) ++ R := ht
      rcases List.append_eq_append_iff.1 ht2 with ⟨a, e1, -⟩ | ⟨c, e1, e2⟩
      · exact hV ⟨[], a, by simpa using e1.symm⟩
      · cases c with
        | nil => exact hV ⟨[], [], by simpa using e1⟩
        | cons x c =>
          have hx : x ∈ body := by
            have e3 : '&' :: body = v :: (V ++ x :: c) := by simpa using e1
            rw [(List.cons.inj e3).2]
            simp
          exact hR x (by rw [e2]; simp) hx
    · exact ih (fun hi => hV (List.infix_cons hi)) h

theorem head_flatten (P : Char → Prop) (pieces : List (List Char))
    (hp : ∀ p ∈ pieces, ∀ c ∈ p.head?, P c) : ∀ c ∈ pieces.flatten.head?, P c := by
  induction pieces with
  | nil => simp
  | cons p ps ih =>
    intro c hc
    cases p with
    | nil => exact ih (fun q hq => hp q (by simp [hq])) c (by simpa using hc)
    | cons x p => exact hp (x :: p) (by simp) c (by simpa using hc)

theorem infix_flatten (body : List Char) (pieces : List (List Char))
    (hp : ∀ p ∈ pieces, ¬ ('&' :: body) <:+: p)
    (hh : ∀ p ∈ pieces, ∀ c ∈ p.head?, c ∉ body) : ¬ ('&' :: body) <:+: pieces.flatten := by
  induction pieces with
  | nil => simp
  | cons p ps ih =>
    intro h
    rw [List.flatten_cons] at h
    have h2 := infix_no_straddle body p ps.flatten (hp p (by simp))
      (head_flatten _ ps (fun q hq => hh q (by simp [hq]))) h
    exact ih (fun q hq => hp q (by simp [hq])) (fun q hq => hh q (by simp [hq])) h2

theorem key_prefix_eq (c : Char) : ∀ (k key rest : List Char), c ∉ k → c ∉ key →
    (k ++ [c]) <+: key ++ c :: rest → k = key
  | [], [], _, _, _, _ => rfl
  | [], b :: key, _, _, hkey, h => by
    have := (List.cons_prefix_cons.1 h).1
    exact absurd (by simp [this]) hkey
  | a :: k, [], _, hk, _, h => by
    have := (List.cons_prefix_cons.1 h).1
    exact absurd (by simp [this]) hk
  | a :: k, b :: key, rest, hk, hkey, h => by
    have h2 := List.cons_prefix_cons.1 h
    rw [h2.1, key_prefix_eq c k key rest (fun hc => hk (by simp [hc]))
      (fun hc => hkey (by simp [hc])) h2.2]


theorem digitChar_clean (d : Nat) (h : d < 10) : digitChar d ≠ '&' := by
  interval_cases d <;> decide

theorem digitsLoop_clean : ∀ (fuel u : Nat) (buf : List Char), (∀ c ∈ buf, c ≠ '&') →
    ∀ c ∈ digitsLoop fuel u buf, c ≠ '&'
  | 0, _, _, hb => hb
  | fuel + 1, u, buf, hb => by
    by_cases h10 : u ≥ 10
    · simp only [digitsLoop, h10, if_true]
      apply digitsLoop_clean fuel
      intro c hc
      rcases List.mem_cons.1 hc with hc | hc
      · rw [hc]; exact digitChar_clean _ (Nat.mod_lt _ (by decide))
      · exact hb c hc
    · simp only [digitsLoop, h10, if_false]
      intro c hc
      rcases List.mem_cons.1 hc with hc | hc
      · rw [hc]; exact digitChar_clean _ (by omega)
      · exact hb c hc

theorem appendInt_clean (b : List Char) (x : Int) (w : Nat) (hb : ∀ c ∈ b, c ≠ '&') :
    ∀ c ∈ appendInt b x w, c ≠ '&' := by
  intro c hc
  simp only [appendInt, List.mem_append] at hc
  rcases hc with (hc | hc) | hc
  · by_cases hx : x < 0
    · rw [if_pos hx] at hc
      rcases List.mem_append.1 hc with hc | hc
      · exact hb c hc
      · rw [List.mem_singleton.1 hc]; decide
    · rw [if_neg hx] at hc
      exact hb c hc
  · rw [(List.mem_replicate.1 hc).2]; decide
  · exact digitsLoop_clean 20 _ [] (by simp) c hc

theorem format_clean (t : Time) : ∀ c ∈ t.Format20060102150405.data, c ≠ '&' := by
  simp only [Time.Format20060102150405]
  exact appendInt_clean _ _ _ (appendInt_clean _ _ _ (appendInt_clean _ _ _
    (appendInt_clean _ _ _ (appendInt_clean _ _ _ (appendInt_clean _ _ _ (by simp))))))

theorem optionalPairs_key_clean (o : DailyPlayerGamelogsOptions) (q : String × String)
    (hq : q ∈ optionalPairs o) : ∀ c ∈ q.1.data, c ≠ '=' ∧ c ≠ '&' ∧ c ≠ '/' ∧ c ≠ '?' := by
  simp only [optionalPairs, List.mem_cons, List.mem_singleton, List.not_mem_nil, or_false] at hq
  rcases hq with h | h | h | h | h | h | h | h | h <;> rw [h] <;> dsimp only <;> decide

theorem optionalPairs_key_inj (o : DailyPlayerGamelogsOptions) (p q : String × String)
    (hp : p ∈ optionalPairs o) (hq : q ∈ optionalPairs o) (h : p.1 = q.1) : p = q := by
  simp only [optionalPairs, List.mem_cons, List.mem_singleton, List.not_mem_nil, or_false]
    at hp hq
  rcases hp with hp | hp | hp | hp | hp | hp | hp | hp | hp <;>
    rcases hq with hq | hq | hq | hq | hq | hq | hq | hq | hq <;>
    rw [hp, hq] at h ⊢ <;> first | rfl | (dsimp only at h; exact absurd h (by decide))

theorem buildURI_as_join (o : DailyPlayerGamelogsOptions) (ts : String) :
    buildURI o ts = o.URL ++ String.join
      (["/" ++ o.Version, "/pull/" ++ o.Sport, "/" ++ o.Season, "/date/" ++ o.Date,
        "/week/" ++ o.Week, "/player_gamelogs." ++ o.Format, "?cachebuster=" ++ ts] ++
       ((optionalPairs o).filter (fun p => p.2 ≠ "")).map
        (fun p => "&" ++ p.1 ++ "=" ++ p.2)) := by
  have ha : buildURI (clearOptionals o) ts =
      o.URL ++ "/" ++ o.Version ++ "/pull/" ++ o.Sport ++ "/" ++ o.Season ++ "/date/" ++
        o.Date ++ "/week/" ++ o.Week ++ "/player_gamelogs." ++ o.Format ++
        "?cachebuster=" ++ ts := rfl
  rw [buildURI_eq, ha, optionalSuffix]
  apply String.ext
  simp [String.data_join, String.data_append, List.append_assoc]


theorem optionalPairs_value_mem (o : DailyPlayerGamelogsOptions) (q : String × String)
    (hq : q ∈ optionalPairs o) : q.2 ∈ fieldValues o := by
  simp only [optionalPairs, List.mem_cons, List.mem_singleton, List.not_mem_nil, or_false] at hq
  rcases hq with h | h | h | h | h | h | h | h | h <;> rw [h] <;> simp [fieldValues]

theorem sep_piece_ok (body : List Char) (sep val : String) (c0 : Char)
    (hhead : sep.data.head? = some c0) (hc0 : c0 ∉ body) (hs : ∀ c ∈ sep.data, c ≠ '&')
    (hval : ¬ ('&' :: body) <:+: val.data) :
    ¬ ('&' :: body) <:+: (sep ++ val).data ∧ ∀ c ∈ (sep ++ val).data.head?, c ∉ body := by
  rw [String.data_append]
  refine ⟨fun h => hval (infix_skip_clean _ _ _ hs h), ?_⟩
  intro c hc
  cases hd : sep.data with
  | nil => rw [hd] at hhead; simp at hhead
  | cons x xs =>
    rw [hd] at hhead hc
    have hx : x = c0 := by simpa using hhead
    have hcx : c = x := by simpa using hc.symm
    rw [hcx, hx]
    exact hc0

theorem buildURI_not_contains (o : DailyPlayerGamelogsOptions) (ts : String)
    (p : String × String) (hp : p ∈ optionalPairs o) (he : p.2 = "")
    (hts : ∀ c ∈ ts.data, c ≠ '&')
    (hv : ∀ v ∈ fieldValues o, ¬ Contains v ("&" ++ p.1 ++ "=")) :
    ¬ Contains (buildURI o ts) ("&" ++ p.1 ++ "=") := by
  have hn : ("&" ++ p.1 ++ "=").data = '&' :: (p.1.data ++ ['=']) := by
    simp [String.data_append]
  simp only [Contains, hn] at hv ⊢
  have hk := optionalPairs_key_clean o p hp
  have hb : ∀ c ∈ p.1.data ++ ['='], c ≠ '&' ∧ c ≠ '/' ∧ c ≠ '?' := by
    intro c hc
    rcases List.mem_append.1 hc with hc | hc
    · exact ⟨(hk c hc).2.1, (hk c hc).2.2.1, (hk c hc).2.2.2⟩
    · rw [List.mem_singleton.1 hc]; decide
  have hslash : '/' ∉ p.1.data ++ ['='] := fun h => (hb _ h).2.1 rfl
  have hquest : '?' ∉ p.1.data ++ ['='] := fun h => (hb _ h).2.2 rfl
  have hamp : '&' ∉ p.1.data ++ ['='] := fun h => (hb _ h).1 rfl
  have hval : ∀ v ∈ fieldValues o, ¬ ('&' :: (p.1.data ++ ['='])) <:+: v.data := hv
  have hpieces : ∀ piece ∈ List.map String.data
      (["/" ++ o.Version, "/pull/" ++ o.Sport, "/" ++ o.Season, "/date/" ++ o.Date,
        "/week/" ++ o.Week, "/player_gamelogs." ++ o.Format, "?cachebuster=" ++ ts] ++
       ((optionalPairs o).filter (fun p => p.2 ≠ "")).map
        (fun p => "&" ++ p.1 ++ "=" ++ p.2)),
      ¬ ('&' :: (p.1.data ++ ['='])) <:+: piece ∧
        ∀ c ∈ piece.head?, c ∉ p.1.data ++ ['='] := by
    intro piece hpiece
    rw [List.map_append, List.mem_append] at hpiece
    rcases hpiece with h7 | hseg
    · simp only [List.map_cons, List.map_nil, List.mem_cons, List.mem_singleton,
        List.not_mem_nil, or_false] at h7
      rcases h7 with h | h | h | h | h | h | h <;> rw [h]
      · exact sep_piece_ok _ _ _ '/' rfl hslash (by decide) (hval _ (by simp [fieldValues]))
      · exact sep_piece_ok _ _ _ '/' rfl hslash (by decide) (hval _ (by simp [fieldValues]))
      · exact sep_piece_ok _ _ _ '/' rfl hslash (by decide) (hval _ (by simp [fieldValues]))
      · exact sep_piece_ok _ _ _ '/' rfl hslash (by decide) (hval _ (by simp [fieldValues]))
      · exact sep_piece_ok _ _ _ '/' rfl hslash (by decide) (hval _ (by simp [fieldValues]))
      · exact sep_piece_ok _ _ _ '/' rfl hslash (by decide) (hval _ (by simp [fieldValues]))
      · exact sep_piece_ok _ _ _ '?' rfl hquest (by decide)
          (fun h => hts '&' (h.subset (by simp)) rfl)
    · simp only [List.map_map, List.mem_map, List.mem_filter, Function.comp] at hseg
      obtain ⟨q, ⟨hq, hq2⟩, rfl⟩ := hseg
      have hq2 : q.2 ≠ "" := by simpa using hq2
      have hqk := optionalPairs_key_clean o q hq
      have hd : ("&" ++ q.1 ++ "=" ++ q.2).data = '&' :: (q.1.data ++ '=' :: q.2.data) := by
        simp [String.data_append]
      rw [hd]
      refine ⟨?_, ?_⟩
      · intro h
        rcases List.infix_cons_iff.1 h with h | h
        · have h2 := (List.cons_prefix_cons.1 h).2
          have hkeys := key_prefix_eq '=' _ _ _ (fun hc => (hk _ hc).1 rfl)
            (fun hc => (hqk _ hc).1 rfl) h2
          have hpq : p = q := optionalPairs_key_inj o p q hp hq (String.ext hkeys)
          exact hq2 (hpq ▸ he)
        · have h3 : ('&' :: (p.1.data ++ ['='])) <:+: (q.1.data ++ ['=']) ++ q.2.data := by
            simpa using h
          refine hval _ (optionalPairs_value_mem o q hq) (infix_skip_clean _ _ _ ?_ h3)
          intro c hc
          rcases List.mem_append.1 hc with hc | hc
          · exact (hqk c hc).2.1
          · rw [List.mem_singleton.1 hc]; decide
      · intro c hc
        have : c = '&' := by simpa using hc.symm
        rw [this]
        exact hamp
  rw [buildURI_as_join, String.data_append, String.data_join]
  intro h
  exact infix_flatten _ _ (fun piece hpc => (hpieces piece hpc).1)
    (fun piece hpc => (hpieces piece hpc).2)
    (infix_no_straddle _ _ _ (hval o.URL (by simp [fieldValues]))
      (head_flatten _ _ (fun piece hpc => (hpieces piece hpc).2)) h)

/-! ## Lemmas on the call -/

section Call

variable { GameLogIO Body : Type} (env : Env GameLogIO Body) (s : Service)
  (o : DailyPlayerGamelogsOptions)

theorem sent_request_eq :
    ({ ({ ({ Method := "GET", URL := builtURI env o } : Request) with
            Header := headerAdd [] "Authorization" env.CompressionHeaderGzip } : Request) with
        Header := headerAdd (headerAdd [] "Authorization" env.CompressionHeaderGzip)
          "Authorization" s.Config.Authorization } : Request) = builtRequest env s o := by
  simp [builtRequest, headerAdd]

theorem run_invalid (h : validateDailyPlayerGamelogsURI o ≠ none) :
    DailyPlayerGamelogs env s o =
      ⟨s, [], .returned env.zero 0 (validateDailyPlayerGamelogsURI o)⟩ := by
  simp [DailyPlayerGamelogs, h]

theorem run_requestedURIs (h : validateDailyPlayerGamelogsURI o = none) :
    requestedURIs (DailyPlayerGamelogs env s o).trace = [builtURI env o] := by
  unfold DailyPlayerGamelogs
  simp only [h, ne_eq, not_true_eq_false, if_false]
  split
  · simp [errorText, requestedURIs, builtURI]
  · split
    · simp [errorText, requestedURIs, builtURI]
    · simp only [errorText, Option.map]
      split <;> [skip; split] <;> simp [requestedURIs, builtURI]

theorem run_sentRequests (h : validateDailyPlayerGamelogsURI o = none)
    (hnew : env.newRequestError "GET" (builtURI env o) = none) :
    sentRequests (DailyPlayerGamelogs env s o).trace = [builtRequest env s o] := by
  rw [builtURI] at hnew
  rw [← sent_request_eq]
  unfold DailyPlayerGamelogs
  simp only [h, ne_eq, not_true_eq_false, if_false, NewRequest, hnew, builtURI]
  split
  · simp [errorText, sentRequests]
  · simp only [errorText, Option.map]
    split <;> [skip; split] <;> simp [sentRequests]

theorem run_service_valid (h : validateDailyPlayerGamelogsURI o = none) :
    (DailyPlayerGamelogs env s o).service =
      { s with Logger := s.Logger.WithFields [("URI", builtURI env o)] } := by
  unfold DailyPlayerGamelogs
  simp only [h, ne_eq, not_true_eq_false, if_false]
  split
  · simp [errorText, builtURI]
  · split
    · simp [errorText, builtURI]
    · simp only [errorText, Option.map]
      split <;> [skip; split] <;> simp [builtURI]

theorem run_outcome_logger (l : Logger) :
    (DailyPlayerGamelogs env { s with Logger := l } o).outcome =
      (DailyPlayerGamelogs env s o).outcome := by
  unfold DailyPlayerGamelogs
  simp only []
  split
  · rfl
  · split
    · rfl
    · split
      · rfl
      · simp only [errorText, Option.map]
        split <;> [skip; split] <;> rfl

end Call
/-! ## The validator: theorems -/

/-- C1: the validator returns nil exactly when all seven required fields are
non-empty, and replacing the nine optional fields by any other values never
changes its result. -/
theorem validate_nil_iff_required_present (o : DailyPlayerGamelogsOptions) :
    (validateDailyPlayerGamelogsURI o = none ↔ RequiredPresent o) ∧
    ∀ team player position game stats sort offset limit force : String,
      validateDailyPlayerGamelogsURI
          (withOptionals o team player position game stats sort offset limit force) =
        validateDailyPlayerGamelogsURI o :=
  ⟨validate_eq_none_iff o, fun _ _ _ _ _ _ _ _ _ => rfl⟩

/-- C2: when some required field is empty the validator fails, and its message
ends with the name of the first empty field in the declared order URL, Version,
Sport, Season, Date, Week, Format, and with the name of no other required
field. -/
theorem validate_names_first_missing (o : DailyPlayerGamelogsOptions)
    (h : ¬ RequiredPresent o) :
    ∃ e name, validateDailyPlayerGamelogsURI o = some e ∧
      firstMissing o = some name ∧ EndsWith e.msg name ∧
      ∀ n ∈ requiredNames, n ≠ name → ¬ EndsWith e.msg n := by
  simp only [validateDailyPlayerGamelogsURI, len_beq_zero, firstMissing, requiredFields,
    List.find?]
  by_cases h1 : o.URL = ""
  · exact ⟨errorsNew "missing required option to build the url: URL", "URL",
      by simp [h1], by simp [h1], by decide, by decide⟩
  have b1 : (o.URL == "") = false := beq_eq_false_iff_ne.mpr h1
  by_cases h2 : o.Version = ""
  · exact ⟨errorsNew "missing required option to build the url: Version", "Version",
      by simp [h1, h2], by simp [b1, h2], by decide, by decide⟩
  have b2 : (o.Version == "") = false := beq_eq_false_iff_ne.mpr h2
  by_cases h3 : o.Sport = ""
  · exact ⟨errorsNew "missing required option to build the url: Sport", "Sport",
      by simp [h1, h2, h3], by simp [b1, b2, h3], by decide, by decide⟩
  have b3 : (o.Sport == "") = false := beq_eq_false_iff_ne.mpr h3
  by_cases h4 : o.Season = ""
  · exact ⟨errorsNew "missing required option to build the url: Season", "Season",
      by simp [h1, h2, h3, h4], by simp [b1, b2, b3, h4], by decide, by decide⟩
  have b4 : (o.Season == "") = false := beq_eq_false_iff_ne.mpr h4
  by_cases h5 : o.Date = ""
  · exact ⟨errorsNew "missing required option to build the url: Date", "Date",
      by simp [h1, h2, h3, h4, h5], by simp [b1, b2, b3, b4, h5], by decide, by decide⟩
  have b5 : (o.Date == "") = false := beq_eq_false_iff_ne.mpr h5
  by_cases h6 : o.Week = ""
  · exact ⟨errorsNew "missing required option to build the url: Week", "Week",
      by simp [h1, h2, h3, h4, h5, h6], by simp [b1, b2, b3, b4, b5, h6],
      by decide, by decide⟩
  have b6 : (o.Week == "") = false := beq_eq_false_iff_ne.mpr h6
  by_cases h7 : o.Format = ""
  · exact ⟨errorsNew "missing required option to build the url: Format", "Format",
      by simp [h1, h2, h3, h4, h5, h6, h7], by simp [b1, b2, b3, b4, b5, b6, h7],
      by decide, by decide⟩
  exact absurd ⟨h1, h2, h3, h4, h5, h6, h7⟩ h

/-- Witness for C2: Sport, Date and Format are all empty; Sport is reported. -/
theorem validate_names_first_missing_witness :
    ¬ RequiredPresent { URL := "u", Version := "v", Season := "s", Week := "1" } ∧
    ∃ e name, validateDailyPlayerGamelogsURI
        { URL := "u", Version := "v", Season := "s", Week := "1" } = some e ∧
      firstMissing { URL := "u", Version := "v", Season := "s", Week := "1" } = some name ∧
      EndsWith e.msg name ∧ ∀ n ∈ requiredNames, n ≠ name → ¬ EndsWith e.msg n :=
  ⟨by decide, validate_names_first_missing _ (by decide)⟩

/-! ## The URI: theorems -/

/-- C3: for a valid record whose nine optional fields are empty, the URI for
which the call constructs its request is URL/Version/pull/Sport/Season/date/
Date/week/Week/player_gamelogs.Format?cachebuster= followed by the formatted
clock reading and nothing more; the same holds of the builder for every
cachebuster text. -/
theorem uri_without_optionals { GameLogIO Body : Type} (env : Env GameLogIO Body)
    (s : Service) (o : DailyPlayerGamelogsOptions) (hreq : RequiredPresent o)
    (hopt : OptionalsEmpty o) :
    (∀ ts : String, buildURI o ts =
      o.URL ++ "/" ++ o.Version ++ "/pull/" ++ o.Sport ++ "/" ++ o.Season ++ "/date/" ++
        o.Date ++ "/week/" ++ o.Week ++ "/player_gamelogs." ++ o.Format ++
        "?cachebuster=" ++ ts) ∧
    requestedURIs (DailyPlayerGamelogs env s o).trace =
      [o.URL ++ "/" ++ o.Version ++ "/pull/" ++ o.Sport ++ "/" ++ o.Season ++ "/date/" ++
        o.Date ++ "/week/" ++ o.Week ++ "/player_gamelogs." ++ o.Format ++
        "?cachebuster=" ++ env.now.Format20060102150405] := by
  obtain ⟨h1, h2, h3, h4, h5, h6, h7, h8, h9⟩ := hopt
  have hb : ∀ ts : String, buildURI o ts =
      o.URL ++ "/" ++ o.Version ++ "/pull/" ++ o.Sport ++ "/" ++ o.Season ++ "/date/" ++
        o.Date ++ "/week/" ++ o.Week ++ "/player_gamelogs." ++ o.Format ++
        "?cachebuster=" ++ ts := by
    intro ts
    have hs : optionalSuffix o = "" := by
      simp [optionalSuffix, optionalPairs, h1, h2, h3, h4, h5, h6, h7, h8, h9, String.join]
    rw [buildURI_eq, hs, String.append_empty]
    rfl
  refine ⟨hb, ?_⟩
  rw [run_requestedURIs env s o ((validate_eq_none_iff o).2 hreq), builtURI, hb]

/-- Witness for C3: the scenario of the specification, at the clock reading
2018-09-07 03:04:05. -/
theorem uri_without_optionals_witness :
    RequiredPresent exampleOptions ∧ OptionalsEmpty exampleOptions ∧
    buildURI exampleOptions "20180907030405" =
      "https://api.example.com/v2.1/pull/nfl/2018-2019-regular/date/20180907/week/1/player_gamelogs.json?cachebuster=20180907030405" ∧
    requestedURIs (DailyPlayerGamelogs (exampleEnv 200 emptyObject) {} exampleOptions).trace =
      ["https://api.example.com/v2.1/pull/nfl/2018-2019-regular/date/20180907/week/1/player_gamelogs.json?cachebuster=20180907030405"] :=
  ⟨by decide, by decide,
    (uri_without_optionals (exampleEnv 200 emptyObject) {} exampleOptions (by decide)
      (by decide)).1
      "20180907030405",
    (uri_without_optionals (exampleEnv 200 emptyObject) {} exampleOptions (by decide)
      (by decide)).2⟩

/-- C4: for a valid record and one clock reading, the URI of the call is the
URI of the call made with the optional fields cleared, followed by `&key=value`
for each of team, player, position, game, stats, sort, offset, limit, force
whose value is non-empty, in that order, the value copied as it is; with only
Team set to NE the suffix is `&team=NE`. -/
theorem uri_appends_optionals { GameLogIO Body : Type} (env : Env GameLogIO Body)
    (s : Service) (o : DailyPlayerGamelogsOptions) (hreq : RequiredPresent o) :
    (∃ base, requestedURIs (DailyPlayerGamelogs env s (clearOptionals o)).trace = [base] ∧
      requestedURIs (DailyPlayerGamelogs env s o).trace = [base ++ optionalSuffix o]) ∧
    optionalSuffix (withOptionals o "NE" "" "" "" "" "" "" "" "") = "&team=NE" := by
  have hv : validateDailyPlayerGamelogsURI o = none := (validate_eq_none_iff o).2 hreq
  have hv0 : validateDailyPlayerGamelogsURI (clearOptionals o) = none := hv
  refine ⟨⟨builtURI env (clearOptionals o), run_requestedURIs env s _ hv0, ?_⟩, rfl⟩
  rw [run_requestedURIs env s o hv, builtURI, builtURI, buildURI_eq]

/-- Witness for C4: the scenario of the specification with Team NE and Limit 5. -/
theorem uri_appends_optionals_witness :
    RequiredPresent { exampleOptions with Team := "NE", Limit := "5" } ∧
    requestedURIs (DailyPlayerGamelogs (exampleEnv 200 emptyObject) {}
        { exampleOptions with Team := "NE", Limit := "5" }).trace =
      ["https://api.example.com/v2.1/pull/nfl/2018-2019-regular/date/20180907/week/1/player_gamelogs.json?cachebuster=20180907030405&team=NE&limit=5"] ∧
    ((∃ base, requestedURIs (DailyPlayerGamelogs (exampleEnv 200 emptyObject) {}
          (clearOptionals { exampleOptions with Team := "NE", Limit := "5" })).trace = [base] ∧
        requestedURIs (DailyPlayerGamelogs (exampleEnv 200 emptyObject) {}
          { exampleOptions with Team := "NE", Limit := "5" }).trace =
            [base ++ optionalSuffix { exampleOptions with Team := "NE", Limit := "5" }]) ∧
      optionalSuffix (withOptionals { exampleOptions with Team := "NE", Limit := "5" }
        "NE" "" "" "" "" "" "" "" "") = "&team=NE") :=
  ⟨by decide, by decide,
    uri_appends_optionals (exampleEnv 200 emptyObject) {}
      { exampleOptions with Team := "NE", Limit := "5" } (by decide)⟩

/-! ## The call: theorems -/

/-- C5 (the code at the failing inputs): with status 404 the call reaches the
status branch and panics on `err.Error()`, so no triple is returned; with
status 300 the status branch is not taken, the body is decoded and the decoded
mapping is returned. -/
theorem status_branch_at_404_and_300 :
    (DailyPlayerGamelogs (exampleEnv 404 emptyObject) {} exampleOptions).outcome =
        .panicked nilDereference ∧
      (DailyPlayerGamelogs (exampleEnv 300 emptyObject) {} exampleOptions).outcome =
        .returned emptyObject 300 none ∧
      Event.decodeBody ∈
        (DailyPlayerGamelogs (exampleEnv 300 emptyObject) {} exampleOptions).trace := by
  decide

/-- C6 (the code at the failing input): with status 200 and a body that does
not decode, the call panics on `err.Error()`, `err` being nil there; neither
the status nor the decode error is returned. -/
theorem decode_failure_at_200 :
    (exampleEnv 200 "<html>").decode "<html>" "" =
        ("", some ⟨"invalid character in JSON input"⟩) ∧
      (DailyPlayerGamelogs (exampleEnv 200 "<html>") {} exampleOptions).outcome =
        .panicked nilDereference := by
  decide

/-- C7: for a valid record, when the request is constructed, the client
answers it with a status in [200, 300) and the body decodes to `m`, the call
returns `m`, that status and a nil error. -/
theorem success_returns_decoded { GameLogIO Body : Type} (env : Env GameLogIO Body)
    (s : Service) (o : DailyPlayerGamelogsOptions) (resp : Response Body) (m : GameLogIO)
    (hreq : RequiredPresent o)
    (hnew : env.newRequestError "GET" (builtURI env o) = none)
    (hdo : env.clientDo (builtRequest env s o) = .ok resp)
    (h200 : 200 ≤ resp.StatusCode) (h300 : resp.StatusCode < 300)
    (hdec : env.decode resp.Body env.zero = (m, none)) :
    (DailyPlayerGamelogs env s o).outcome = .returned m resp.StatusCode none := by
  have hv : validateDailyPlayerGamelogsURI o = none := (validate_eq_none_iff o).2 hreq
  have hs : ¬ (resp.StatusCode < 200 ∨ resp.StatusCode > 300) := by omega
  have hnew2 := hnew
  rw [builtURI] at hnew2
  have hdo2 := hdo
  rw [← sent_request_eq, builtURI] at hdo2
  simp [DailyPlayerGamelogs, hv, NewRequest, hnew2, hdo2, hs, hdec]

/-- Witness for C7: status 204 and the empty object as body in the scenario of the
specification. -/
theorem success_returns_decoded_witness :
    RequiredPresent exampleOptions ∧
    (DailyPlayerGamelogs (exampleEnv 204 emptyObject) {} exampleOptions).outcome =
      .returned emptyObject 204 none :=
  ⟨by decide,
    success_returns_decoded (exampleEnv 204 emptyObject) {} exampleOptions
      ⟨204, emptyObject⟩ emptyObject
      (by decide) rfl rfl (by decide) (by decide) rfl⟩

/-- C8: when some required field is empty the call returns the zero mapping,
status 0 and the error of the validator, which is not nil; it has no effect at
all (no clock reading, no request constructed or sent) and leaves the service
as it was. -/
theorem invalid_options_stop_early { GameLogIO Body : Type} (env : Env GameLogIO Body)
    (s : Service) (o : DailyPlayerGamelogsOptions) (h : ¬ RequiredPresent o) :
    validateDailyPlayerGamelogsURI o ≠ none ∧
    (DailyPlayerGamelogs env s o).outcome =
      .returned env.zero 0 (validateDailyPlayerGamelogsURI o) ∧
    (DailyPlayerGamelogs env s o).trace = [] ∧
    (DailyPlayerGamelogs env s o).service = s := by
  have hv : validateDailyPlayerGamelogsURI o ≠ none :=
    fun e => h ((validate_eq_none_iff o).1 e)
  rw [run_invalid env s o hv]
  exact ⟨hv, rfl, rfl, rfl⟩

/-- Witness for C8: the scenario of the specification with the Week left
empty. -/
theorem invalid_options_stop_early_witness :
    ¬ RequiredPresent { exampleOptions with Week := "" } ∧
    (DailyPlayerGamelogs (exampleEnv 200 emptyObject) {}
        { exampleOptions with Week := "" }).outcome =
      .returned "" 0 (some ⟨"missing required option to build the url: Week"⟩) ∧
    (DailyPlayerGamelogs (exampleEnv 200 emptyObject) {}
        { exampleOptions with Week := "" }).trace = [] :=
  ⟨by decide,
    (invalid_options_stop_early (exampleEnv 200 emptyObject) {}
      { exampleOptions with Week := "" } (by decide)).2.1,
    (invalid_options_stop_early (exampleEnv 200 emptyObject) {}
      { exampleOptions with Week := "" } (by decide)).2.2.1⟩

/-- C9: for a valid record, when request construction fails for the built URI
with error `e`, or the request is constructed and the retrying client returns
the error `e`, the call returns the zero mapping, status 0 and `e`. -/
theorem no_response_returns_error { GameLogIO Body : Type} (env : Env GameLogIO Body)
    (s : Service) (o : DailyPlayerGamelogsOptions) (e : GoError)
    (hreq : RequiredPresent o)
    (h : env.newRequestError "GET" (builtURI env o) = some e ∨
      (env.newRequestError "GET" (builtURI env o) = none ∧
        env.clientDo (builtRequest env s o) = .error e)) :
    (DailyPlayerGamelogs env s o).outcome = .returned env.zero 0 (some e) := by
  have hv : validateDailyPlayerGamelogsURI o = none := (validate_eq_none_iff o).2 hreq
  rcases h with hnew | ⟨hnew, hdo⟩
  · rw [builtURI] at hnew
    simp [DailyPlayerGamelogs, hv, NewRequest, hnew, errorText]
  · rw [← sent_request_eq, builtURI] at hdo
    rw [builtURI] at hnew
    simp [DailyPlayerGamelogs, hv, NewRequest, hnew, hdo, errorText]

/-- Witness for C9: request construction rejected, and the client giving up. -/
theorem no_response_returns_error_witness :
    RequiredPresent exampleOptions ∧
    (DailyPlayerGamelogs rejectingEnv {} exampleOptions).outcome =
      .returned "" 0 (some ⟨"parse: invalid URI for request"⟩) ∧
    (DailyPlayerGamelogs unreachableEnv {} exampleOptions).outcome =
      .returned "" 0 (some ⟨"GET giving up after 5 attempts"⟩) :=
  ⟨by decide,
    no_response_returns_error rejectingEnv {} exampleOptions _ (by decide) (Or.inl rfl),
    no_response_returns_error unreachableEnv {} exampleOptions _ (by decide)
      (Or.inr ⟨rfl, rfl⟩)⟩

/-- C10: for a valid record and a clock reading with its fields in range and
its year in 1..9999, the cachebuster placed in the URI of the call is the
reading formatted as YYYYMMDDHHMMSS: exactly 14 characters, each a decimal
digit. -/
theorem cachebuster_fourteen_digits { GameLogIO Body : Type} (env : Env GameLogIO Body)
    (s : Service) (o : DailyPlayerGamelogsOptions) (hreq : RequiredPresent o)
    (hr : env.now.InRange) (hy1 : 1 ≤ env.now.year) (hy2 : env.now.year ≤ 9999) :
    ∃ cb : String, requestedURIs (DailyPlayerGamelogs env s o).trace = [buildURI o cb] ∧
      cb = env.now.Format20060102150405 ∧ cb.length = 14 ∧
      ∀ c ∈ cb.data, c.isDigit = true :=
  ⟨env.now.Format20060102150405,
    run_requestedURIs env s o ((validate_eq_none_iff o).2 hreq), rfl,
    format_spec env.now hr hy1 hy2⟩

/-- Witness for C10: the clock reading 2018-09-07 03:04:05. -/
theorem cachebuster_fourteen_digits_witness :
    RequiredPresent exampleOptions ∧ (exampleEnv 200 emptyObject).now.InRange ∧
    ∃ cb : String,
      requestedURIs (DailyPlayerGamelogs (exampleEnv 200 emptyObject) {} exampleOptions).trace =
        [buildURI exampleOptions cb] ∧
      cb = (exampleEnv 200 emptyObject).now.Format20060102150405 ∧ cb.length = 14 ∧
      ∀ c ∈ cb.data, c.isDigit = true :=
  ⟨by decide, by decide,
    cachebuster_fourteen_digits (exampleEnv 200 emptyObject) {} exampleOptions (by decide)
      (by decide) (by decide) (by decide)⟩

/-! ## The validator's message, the factory, the request, the service -/

/-- C12 (counterexample): with every field empty the validator's message is
not `missing required option: URL`, URL being the first missing field. -/
theorem validate_message_not_short_form :
    firstMissing {} = some "URL" ∧
      validateDailyPlayerGamelogsURI {} ≠
        some ⟨"missing required option: " ++ "URL"⟩ := by
  decide

/-- C12 (amended): when some required field is empty, the validator's message
is exactly `missing required option to build the url: ` followed by the name
of the first missing field. -/
theorem validate_message_exact (o : DailyPlayerGamelogsOptions) (h : ¬ RequiredPresent o) :
    ∃ name, firstMissing o = some name ∧ name ∈ requiredNames ∧
      validateDailyPlayerGamelogsURI o =
        some ⟨"missing required option to build the url: " ++ name⟩ := by
  simp only [validateDailyPlayerGamelogsURI, len_beq_zero, firstMissing, requiredFields,
    List.find?, errorsNew]
  by_cases h1 : o.URL = ""
  · exact ⟨"URL", by simp [h1], by decide, by simp [h1]⟩
  have b1 : (o.URL == "") = false := beq_eq_false_iff_ne.mpr h1
  by_cases h2 : o.Version = ""
  · exact ⟨"Version", by simp [b1, h2], by decide, by simp [h1, h2]⟩
  have b2 : (o.Version == "") = false := beq_eq_false_iff_ne.mpr h2
  by_cases h3 : o.Sport = ""
  · exact ⟨"Sport", by simp [b1, b2, h3], by decide, by simp [h1, h2, h3]⟩
  have b3 : (o.Sport == "") = false := beq_eq_false_iff_ne.mpr h3
  by_cases h4 : o.Season = ""
  · exact ⟨"Season", by simp [b1, b2, b3, h4], by decide, by simp [h1, h2, h3, h4]⟩
  have b4 : (o.Season == "") = false := beq_eq_false_iff_ne.mpr h4
  by_cases h5 : o.Date = ""
  · exact ⟨"Date", by simp [b1, b2, b3, b4, h5], by decide,
      by simp [h1, h2, h3, h4, h5]⟩
  have b5 : (o.Date == "") = false := beq_eq_false_iff_ne.mpr h5
  by_cases h6 : o.Week = ""
  · exact ⟨"Week", by simp [b1, b2, b3, b4, b5, h6], by decide,
      by simp [h1, h2, h3, h4, h5, h6]⟩
  have b6 : (o.Week == "") = false := beq_eq_false_iff_ne.mpr h6
  by_cases h7 : o.Format = ""
  · exact ⟨"Format", by simp [b1, b2, b3, b4, b5, b6, h7], by decide,
      by simp [h1, h2, h3, h4, h5, h6, h7]⟩
  exact absurd ⟨h1, h2, h3, h4, h5, h6, h7⟩ h

/-- Witness for C12 (amended): the scenario of the specification with Season
and Week left empty; Season is named. -/
theorem validate_message_exact_witness :
    ¬ RequiredPresent { exampleOptions with Season := "", Week := "" } ∧
    ∃ name, firstMissing { exampleOptions with Season := "", Week := "" } = some name ∧
      name ∈ requiredNames ∧
      validateDailyPlayerGamelogsURI { exampleOptions with Season := "", Week := "" } =
        some ⟨"missing required option to build the url: " ++ name⟩ :=
  ⟨by decide, validate_message_exact _ (by decide)⟩

/-- C13: the factory copies BaseURL, Version, Sport, Season and Format from the
configuration into URL, Version, Sport, Season and Format, leaves Date, Week
and the nine optional fields empty, returns a record for every configuration
(the empty one included), and the validator fails on every record it
returns. -/
theorem factory_copies_config (s : Service) :
    (NewDailyPlayerGamelogsOptions s).URL = s.Config.BaseURL ∧
    (NewDailyPlayerGamelogsOptions s).Version = s.Config.Version ∧
    (NewDailyPlayerGamelogsOptions s).Sport = s.Config.Sport ∧
    (NewDailyPlayerGamelogsOptions s).Season = s.Config.Season ∧
    (NewDailyPlayerGamelogsOptions s).Format = s.Config.Format ∧
    (NewDailyPlayerGamelogsOptions s).Date = "" ∧
    (NewDailyPlayerGamelogsOptions s).Week = "" ∧
    OptionalsEmpty (NewDailyPlayerGamelogsOptions s) ∧
    NewDailyPlayerGamelogsOptions {} = {} ∧
    validateDailyPlayerGamelogsURI (NewDailyPlayerGamelogsOptions s) ≠ none := by
  refine ⟨rfl, rfl, rfl, rfl, rfl, rfl, rfl, ⟨rfl, rfl, rfl, rfl, rfl, rfl, rfl, rfl, rfl⟩,
    rfl, ?_⟩
  intro hv
  have hp := (validate_eq_none_iff _).1 hv
  exact hp.2.2.2.2.1 rfl

/-- C14: for a valid record whose request is constructed, exactly one request
is handed to the client: a GET to the built URI whose header is the single key
Authorization with two values, `CompressionHeaderGzip` first and the
configured credential second. -/
theorem request_has_two_authorization_values { GameLogIO Body : Type}
    (env : Env GameLogIO Body) (s : Service) (o : DailyPlayerGamelogsOptions)
    (hreq : RequiredPresent o)
    (hnew : env.newRequestError "GET" (builtURI env o) = none) :
    ∃ req, sentRequests (DailyPlayerGamelogs env s o).trace = [req] ∧
      req.Method = "GET" ∧ req.URL = builtURI env o ∧
      requestedURIs (DailyPlayerGamelogs env s o).trace = [req.URL] ∧
      req.Header =
        [("Authorization", [env.CompressionHeaderGzip, s.Config.Authorization])] :=
  ⟨builtRequest env s o,
    run_sentRequests env s o ((validate_eq_none_iff o).2 hreq) hnew, rfl, rfl,
    run_requestedURIs env s o ((validate_eq_none_iff o).2 hreq), rfl⟩

/-- Witness for C14: the scenario of the specification with the credential
`Basic abc`. -/
theorem request_has_two_authorization_values_witness :
    RequiredPresent exampleOptions ∧
    sentRequests (DailyPlayerGamelogs (exampleEnv 200 emptyObject)
        { Config := { Authorization := "Basic abc" } } exampleOptions).trace =
      [{ Method := "GET"
         URL := "https://api.example.com/v2.1/pull/nfl/2018-2019-regular/date/20180907/week/1/player_gamelogs.json?cachebuster=20180907030405"
         Header := [("Authorization", ["gzip", "Basic abc"])] }] ∧
    ∃ req, sentRequests (DailyPlayerGamelogs (exampleEnv 200 emptyObject)
          { Config := { Authorization := "Basic abc" } } exampleOptions).trace = [req] ∧
      req.Method = "GET" ∧ req.URL = builtURI (exampleEnv 200 emptyObject) exampleOptions ∧
      requestedURIs (DailyPlayerGamelogs (exampleEnv 200 emptyObject)
          { Config := { Authorization := "Basic abc" } } exampleOptions).trace = [req.URL] ∧
      req.Header = [("Authorization", ["gzip", "Basic abc"])] :=
  ⟨by decide, by decide,
    request_has_two_authorization_values (exampleEnv 200 emptyObject)
      { Config := { Authorization := "Basic abc" } } exampleOptions (by decide) rfl⟩

/-- C15 (counterexample): after a call with the scenario of the specification
on a service whose logger has no fields, the service's logger is no longer
the one it had. -/
theorem service_logger_replaced :
    (DailyPlayerGamelogs (exampleEnv 200 emptyObject) {} exampleOptions).service.Logger ≠
        ({} : Service).Logger ∧
      (DailyPlayerGamelogs (exampleEnv 200 emptyObject) {} exampleOptions).service.Logger.Data =
        [("URI", builtURI (exampleEnv 200 emptyObject) exampleOptions)] := by
  decide

/-- C15 (amended): a call leaves the service's Config unchanged and its
outcome does not depend on the service's Logger. When a required field is
empty the service is unchanged. For a valid record the call replaces the
Logger by the entry that also carries the field URI with the built URI; the
Logger afterwards carries that field, and it differs from the Logger before
whenever the Logger before did not carry that field. -/
theorem service_after_call { GameLogIO Body : Type} (env : Env GameLogIO Body)
    (s : Service) (o : DailyPlayerGamelogsOptions) :
    (DailyPlayerGamelogs env s o).service.Config = s.Config ∧
    (∀ l : Logger, (DailyPlayerGamelogs env { s with Logger := l } o).outcome =
      (DailyPlayerGamelogs env s o).outcome) ∧
    (¬ RequiredPresent o → (DailyPlayerGamelogs env s o).service = s) ∧
    (RequiredPresent o →
      (DailyPlayerGamelogs env s o).service.Logger =
        s.Logger.WithFields [("URI", builtURI env o)] ∧
      ("URI", builtURI env o) ∈ (DailyPlayerGamelogs env s o).service.Logger.Data ∧
      (("URI", builtURI env o) ∉ s.Logger.Data →
        (DailyPlayerGamelogs env s o).service.Logger ≠ s.Logger)) := by
  refine ⟨?_, run_outcome_logger env s o, ?_, ?_⟩
  · by_cases hv : validateDailyPlayerGamelogsURI o = none
    · rw [run_service_valid env s o hv]
    · rw [run_invalid env s o hv]
  · intro h
    rw [run_invalid env s o (fun e => h ((validate_eq_none_iff o).1 e))]
  · intro h
    rw [run_service_valid env s o ((validate_eq_none_iff o).2 h)]
    have hmem : ("URI", builtURI env o) ∈
        (s.Logger.WithFields [("URI", builtURI env o)]).Data := by
      simp [Logger.WithFields]
    refine ⟨rfl, hmem, ?_⟩
    intro hnot heq
    have heq2 : s.Logger.WithFields [("URI", builtURI env o)] = s.Logger := heq
    rw [heq2] at hmem
    exact hnot hmem

/-- Witness for C15 (amended): a valid and an invalid record on a service
whose logger already carries another field. -/
theorem service_after_call_witness :
    RequiredPresent exampleOptions ∧ ¬ RequiredPresent {} ∧
    ("URI", builtURI (exampleEnv 200 emptyObject) exampleOptions) ∉
      ({ Logger := ⟨[("app", "msf")]⟩ } : Service).Logger.Data ∧
    (DailyPlayerGamelogs (exampleEnv 200 emptyObject) { Logger := ⟨[("app", "msf")]⟩ }
        exampleOptions).service.Logger =
      (⟨[("app", "msf")]⟩ : Logger).WithFields
        [("URI", builtURI (exampleEnv 200 emptyObject) exampleOptions)] ∧
    (DailyPlayerGamelogs (exampleEnv 200 emptyObject) { Logger := ⟨[("app", "msf")]⟩ }
        exampleOptions).service.Logger ≠ ⟨[("app", "msf")]⟩ ∧
    (DailyPlayerGamelogs (exampleEnv 200 emptyObject) { Logger := ⟨[("app", "msf")]⟩ }
        {}).service = { Logger := ⟨[("app", "msf")]⟩ } :=
  ⟨by decide, by decide, by decide,
    ((service_after_call (exampleEnv 200 emptyObject) { Logger := ⟨[("app", "msf")]⟩ }
      exampleOptions).2.2.2 (by decide)).1,
    ((service_after_call (exampleEnv 200 emptyObject) { Logger := ⟨[("app", "msf")]⟩ }
      exampleOptions).2.2.2 (by decide)).2.2 (by decide),
    (service_after_call (exampleEnv 200 emptyObject) { Logger := ⟨[("app", "msf")]⟩ }
      {}).2.2.1 (by decide)⟩

/-- C17 (the code at the failing inputs): with status 401, and with status 201
and a body that does not decode, the call evaluates `err.Error()` while `err`
is nil and panics instead of returning a triple; the last effect before the
panic is the request sent, respectively the decoding of the body. -/
theorem nil_error_dereferenced_at_401_and_201 :
    (DailyPlayerGamelogs (exampleEnv 401 "Unauthorized") {} exampleOptions).outcome =
        .panicked nilDereference ∧
      (DailyPlayerGamelogs (exampleEnv 401 "Unauthorized") {}
        exampleOptions).trace.getLast? =
          some (.clientDo (builtRequest (exampleEnv 401 "Unauthorized") {}
            exampleOptions)) ∧
      (DailyPlayerGamelogs (exampleEnv 201 "created") {} exampleOptions).outcome =
        .panicked nilDereference ∧
      (DailyPlayerGamelogs (exampleEnv 201 "created") {} exampleOptions).trace.getLast? =
        some .decodeBody := by
  decide

/-! ## The cachebuster across calls -/

/-- C11: for a valid record, two calls whose clock readings differ (fields in
range, years within Go's `int`) place different cachebusters in their URIs, so
the two URIs differ: the layout is injective on second-granularity readings. -/
theorem cachebuster_differs_between_seconds { GameLogIO Body : Type}
    (env1 env2 : Env GameLogIO Body) (s1 s2 : Service) (o : DailyPlayerGamelogsOptions)
    (hreq : RequiredPresent o) (hr1 : env1.now.InRange) (hr2 : env2.now.InRange)
    (hy1 : env1.now.YearIsInt) (hy2 : env2.now.YearIsInt) (hne : env1.now ≠ env2.now) :
    env1.now.Format20060102150405 ≠ env2.now.Format20060102150405 ∧
    requestedURIs (DailyPlayerGamelogs env1 s1 o).trace ≠
      requestedURIs (DailyPlayerGamelogs env2 s2 o).trace := by
  have hv : validateDailyPlayerGamelogsURI o = none := (validate_eq_none_iff o).2 hreq
  have hf : env1.now.Format20060102150405 ≠ env2.now.Format20060102150405 :=
    fun e => hne (format_inj _ _ hr1 hr2 hy1 hy2 e)
  refine ⟨hf, ?_⟩
  rw [run_requestedURIs env1 s1 o hv, run_requestedURIs env2 s2 o hv]
  intro e
  exact hf (buildURI_inj o _ _ (List.cons.inj e).1)

/-- Witness for C11: the scenario of the specification at 03:04:05 and one
second later. -/
theorem cachebuster_differs_between_seconds_witness :
    RequiredPresent exampleOptions ∧
    (exampleEnv 200 emptyObject).now.InRange ∧ laterEnv.now.InRange ∧
    (exampleEnv 200 emptyObject).now.YearIsInt ∧ laterEnv.now.YearIsInt ∧
    (exampleEnv 200 emptyObject).now ≠ laterEnv.now ∧
    (exampleEnv 200 emptyObject).now.Format20060102150405 ≠
      laterEnv.now.Format20060102150405 ∧
    requestedURIs (DailyPlayerGamelogs (exampleEnv 200 emptyObject) {} exampleOptions).trace ≠
      requestedURIs (DailyPlayerGamelogs laterEnv {} exampleOptions).trace :=
  ⟨by decide, by decide, by decide, by decide, by decide, by decide,
    cachebuster_differs_between_seconds (exampleEnv 200 emptyObject) laterEnv {} {}
      exampleOptions (by decide) (by decide) (by decide) (by decide) (by decide) (by decide)⟩

/-! ## Optional keys in the URI -/

/-- C16 (counterexample): a valid record whose Player field is empty and whose
Team value is `NE&player=x` yields a URI in which `&player=` occurs. -/
theorem empty_optional_key_in_uri :
    RequiredPresent smugglingOptions ∧
    ("player", "") ∈ optionalPairs smugglingOptions ∧
    requestedURIs (DailyPlayerGamelogs (exampleEnv 200 emptyObject) {}
        smugglingOptions).trace =
      [builtURI (exampleEnv 200 emptyObject) smugglingOptions] ∧
    Contains (builtURI (exampleEnv 200 emptyObject) smugglingOptions)
      ("&" ++ "player" ++ "=") :=
  ⟨by decide, by decide, by decide,
    ("https://api.example.com/v2.1/pull/nfl/2018-2019-regular/date/20180907/week/1/" ++
      "player_gamelogs.json?cachebuster=20180907030405&team=NE").data,
    "x".data, by decide⟩

/-- C16 (amended): for a valid record and each optional key whose field is
empty, if no field value of the record itself contains the text `&key=`, then
`&key=` does not occur anywhere in the URI of the call. -/
theorem empty_optional_key_absent { GameLogIO Body : Type} (env : Env GameLogIO Body)
    (s : Service) (o : DailyPlayerGamelogsOptions) (hreq : RequiredPresent o)
    (p : String × String) (hp : p ∈ optionalPairs o) (he : p.2 = "")
    (hv : ∀ v ∈ fieldValues o, ¬ Contains v ("&" ++ p.1 ++ "=")) :
    ∃ uri, requestedURIs (DailyPlayerGamelogs env s o).trace = [uri] ∧
      ¬ Contains uri ("&" ++ p.1 ++ "=") :=
  ⟨builtURI env o, run_requestedURIs env s o ((validate_eq_none_iff o).2 hreq),
    buildURI_not_contains o _ p hp he (format_clean env.now) hv⟩

/-- Witness for C16 (amended): the scenario of the specification with Team NE
and the key player. -/
theorem empty_optional_key_absent_witness :
    RequiredPresent { exampleOptions with Team := "NE" } ∧
    ("player", "") ∈ optionalPairs { exampleOptions with Team := "NE" } ∧
    (∀ v ∈ fieldValues { exampleOptions with Team := "NE" },
      ¬ Contains v ("&" ++ "player" ++ "=")) ∧
    ∃ uri, requestedURIs (DailyPlayerGamelogs (exampleEnv 200 emptyObject) {}
        { exampleOptions with Team := "NE" }).trace = [uri] ∧
      ¬ Contains uri ("&" ++ "player" ++ "=") :=
  ⟨by decide, by decide, by decide,
    empty_optional_key_absent (exampleEnv 200 emptyObject) {}
      { exampleOptions with Team := "NE" } (by decide) ("player", "") (by decide) rfl
      (by decide)⟩

end Msf
